import Mathlib

/-!
Verification development for the scryarr Resolution & Deduplication Engine.

Shallow embedding of:
  - internal/store/store.go   (recommendation_history, title_resolution_cache,
                               plex_inventory tables and their operations)
  - internal/tmdb/tmdb.go     (Client.SearchAndResolve, searchMovie, searchTV,
                               getCached, cacheResult)
  - internal/resolve          (Resolver.Resolve pipeline)

Modelling conventions:
  - Timestamps are `Int`, measured in days; RFC3339 strings compare
    chronologically, so string `>=` on `last_seen_at` is `Int` `≤` here.
    `time.Now().AddDate(0,0,-60)` becomes `now - 60`.
  - The external TMDb HTTP client is a record of pure functions
    (`TMDbAPI`); an `Except` error models a failed HTTP call.
  - SQL tables are lists of rows.  The title_resolution_cache list is kept
    newest-first (insert = cons); `ORDER BY resolved_at DESC LIMIT 1`
    becomes "first match", i.e. the most recently inserted matching row is
    authoritative (resolved_at never decreases along a run).
  - The unique indexes `(label, tmdb_id, media_type)` on history and
    `(tmdb_id, media_type)` on inventory, and the `CHECK (media_type IN
    ('movie','tv'))` constraints, are modelled in the operations:
    `RecordRecommendation` upserts (ON CONFLICT DO UPDATE) and is a no-op
    on a CHECK violation; an inventory insert fails on a duplicate pair.
  - Store reads are total (the Go fallbacks for read errors are dead code
    in the model); store *writes* that may fail are driven by explicit
    failure oracles (`recordFail`, `failAt`, `commitFail`), matching the
    fact that in Go these calls return errors.
  - float64 fields (VoteAverage) are only ever copied, never computed on;
    they are modelled as `Rat`.
-/

namespace Scryarr

/-- One element of `results.Results` from a TMDb search endpoint
(movie search uses `.Title`, TV search uses `.Name`; both are `title` here). -/
structure SearchResult where
  id : Int
  title : String
  overview : String
  voteCount : Int
  voteAvg : Rat
deriving DecidableEq

/-- Payload of `GetMovieDetails`. -/
structure MovieDetails where
  imdbId : String
  runtime : Int
  genres : List String
  productionCountries : List String
deriving DecidableEq

/-- Payload of `GetTVDetails`. -/
structure TVDetails where
  genres : List String
  episodeRunTime : List Int
  originCountry : List String
deriving DecidableEq

/-- The external TMDb HTTP surface consumed by `internal/tmdb`.
Each field is one endpoint; `.error` models a failed call. -/
structure TMDbAPI where
  getSearchMovies : String → Int → Except String (List SearchResult)
  getMovieDetails : Int → Except String MovieDetails
  getMovieKeywords : Int → Except String (List String)
  getSearchTVShow : String → Int → Except String (List SearchResult)
  getTVDetails : Int → Except String TVDetails
  getTVKeywords : Int → Except String (List String)

/-- Mirror of `tmdb.TitleResult`. -/
structure TitleResult where
  tmdbId : Int
  imdbId : String
  title : String
  year : Int
  mediaType : String
  overview : String
  genres : List String
  keywords : List String
  voteCount : Int
  voteAvg : Rat
  runtimeMin : Int
  country : String
deriving DecidableEq

/-- Row of the `recommendation_history` table. -/
structure HistoryRow where
  label : String
  tmdbId : Int
  mediaType : String
  firstSeenAt : Int
  lastSeenAt : Int
deriving DecidableEq

/-- Row of the `title_resolution_cache` table. -/
structure CacheRow where
  title : String
  year : Int
  mediaType : String
  tmdbId : Int
  imdbId : String
  country : String
  runtimeMin : Int
  resolvedAt : Int
deriving DecidableEq

/-- Row of the `plex_inventory` table. -/
structure InventoryRow where
  tmdbId : Int
  mediaType : String
  presentAt : Int
deriving DecidableEq

/-- The persistent store: the three tables the engine touches.
The cache list is newest-first. -/
structure StoreState where
  history : List HistoryRow
  cache : List CacheRow
  inventory : List InventoryRow
deriving DecidableEq

/-- The `CHECK (media_type IN ('movie','tv'))` column constraint. -/
def validMediaType (m : String) : Bool :=
  m == "movie" || m == "tv"

/-- Key predicate of the unique index `ix_history_label_tmdb`. -/
def HistoryRow.keyIs (r : HistoryRow) (label : String) (tmdbId : Int)
    (mediaType : String) : Bool :=
  r.label == label && r.tmdbId == tmdbId && r.mediaType == mediaType

namespace Store

/-- `Store.RecordRecommendation`: INSERT OR (ON CONFLICT on
`(label, tmdb_id, media_type)`) UPDATE SET `last_seen_at = now`.
A CHECK violation (invalid media type) fails the statement, leaving the
table unchanged. -/
def RecordRecommendation (st : StoreState) (label : String) (tmdbId : Int)
    (mediaType : String) (now : Int) : StoreState :=
  if validMediaType mediaType then
    if st.history.any (fun r => r.keyIs label tmdbId mediaType) then
      { st with history := st.history.map (fun r =>
          if r.keyIs label tmdbId mediaType then { r with lastSeenAt := now } else r) }
    else
      { st with history := st.history ++ [⟨label, tmdbId, mediaType, now, now⟩] }
  else st

/-- `Store.GetRecommendationsSince`: tmdb_ids of history rows for this label
with `last_seen_at >= since`.  Note: the query ignores `media_type`. -/
def GetRecommendationsSince (st : StoreState) (label : String) (since : Int) :
    List Int :=
  (st.history.filter (fun r => r.label == label && decide (since ≤ r.lastSeenAt))).map
    (fun r => r.tmdbId)

/-- The SELECT of `Store.GetTitleResolution` on a raw cache-row list:
latest matching `(title, year, media_type)` row. -/
def lookupCache (cache : List CacheRow) (title : String) (year : Int)
    (mediaType : String) : Option CacheRow :=
  cache.find? (fun r => r.title == title && r.year == year && r.mediaType == mediaType)

/-- `Store.GetTitleResolution`. -/
def GetTitleResolution (st : StoreState) (title : String) (year : Int)
    (mediaType : String) : Option CacheRow :=
  lookupCache st.cache title year mediaType

/-- `Store.CacheTitleResolution`: plain INSERT (append-only table). -/
def CacheTitleResolution (st : StoreState) (title : String) (year : Int)
    (mediaType : String) (tmdbId : Int) (imdbId country : String)
    (runtimeMin : Int) (now : Int) : StoreState :=
  { st with cache := ⟨title, year, mediaType, tmdbId, imdbId, country, runtimeMin, now⟩ :: st.cache }

/-- `Store.IsInPlexInventory`: COUNT(*) > 0 on `(tmdb_id, media_type)`. -/
def IsInPlexInventory (st : StoreState) (tmdbId : Int) (mediaType : String) : Bool :=
  st.inventory.any (fun r => r.tmdbId == tmdbId && r.mediaType == mediaType)

/-- Insert loop of `Store.UpdatePlexInventory` inside the transaction:
after the DELETE the table is empty; each insert may fail (oracle `failAt`),
and violating the unique index `(tmdb_id, media_type)` or the media_type
CHECK fails the statement. -/
def updateInventoryGo (now : Int) (failAt : Nat → Bool) :
    List (Int × String) → Nat → List InventoryRow →
    Except String (List InventoryRow)
  | [], _, acc => .ok acc
  | (id, m) :: rest, k, acc =>
    if failAt k then .error "insert failed"
    else if !validMediaType m then .error "CHECK constraint failed"
    else if acc.any (fun r => r.tmdbId == id && r.mediaType == m) then
      .error "UNIQUE constraint failed"
    else updateInventoryGo now failAt rest (k + 1) (acc ++ [⟨id, m, now⟩])

/-- `Store.UpdatePlexInventory`: transaction that deletes the snapshot and
re-inserts `items`; any failure (or a failed commit) rolls back.  Returns
the post-transaction store and whether the call succeeded. -/
def UpdatePlexInventory (st : StoreState) (items : List (Int × String))
    (now : Int) (failAt : Nat → Bool) (commitFail : Bool) : StoreState × Bool :=
  match updateInventoryGo now failAt items 0 [] with
  | .error _ => (st, false)
  | .ok rows => if commitFail then (st, false) else ({ st with inventory := rows }, true)

end Store

namespace Client

/-- `Client.searchMovie`: search (first result is the match), then details
and keywords, each of which may fail independently without failing the
resolution. -/
def searchMovie (api : TMDbAPI) (title : String) (year : Int) :
    Except String TitleResult :=
  match api.getSearchMovies title year with
  | .error _ => .error "TMDb search failed"
  | .ok [] => .error "no results found"
  | .ok (movie :: _) =>
    let keywordList : List String :=
      match api.getMovieKeywords movie.id with
      | .ok kws => kws
      | .error _ => []
    let base : TitleResult :=
      { tmdbId := movie.id, imdbId := "", title := movie.title, year := year
        mediaType := "movie", overview := movie.overview, genres := []
        keywords := keywordList, voteCount := movie.voteCount
        voteAvg := movie.voteAvg, runtimeMin := 0, country := "" }
    match api.getMovieDetails movie.id with
    | .error _ => .ok base
    | .ok d =>
      .ok { base with
              imdbId := d.imdbId, runtimeMin := d.runtime, genres := d.genres
              country := d.productionCountries.headD "" }

/-- `Client.searchTV`: same shape as `searchMovie`. -/
def searchTV (api : TMDbAPI) (title : String) (year : Int) :
    Except String TitleResult :=
  match api.getSearchTVShow title year with
  | .error _ => .error "TMDb search failed"
  | .ok [] => .error "no results found"
  | .ok (show_ :: _) =>
    let keywordList : List String :=
      match api.getTVKeywords show_.id with
      | .ok kws => kws
      | .error _ => []
    let base : TitleResult :=
      { tmdbId := show_.id, imdbId := "", title := show_.title, year := year
        mediaType := "tv", overview := show_.overview, genres := []
        keywords := keywordList, voteCount := show_.voteCount
        voteAvg := show_.voteAvg, runtimeMin := 0, country := "" }
    match api.getTVDetails show_.id with
    | .error _ => .ok base
    | .ok d =>
      .ok { base with
              genres := d.genres, runtimeMin := d.episodeRunTime.headD 0
              country := d.originCountry.headD "" }

/-- `Client.getCached`: a cache hit yields a partial `TitleResult`
(no overview, genres, keywords, votes). -/
def getCached (st : StoreState) (title : String) (year : Int)
    (mediaType : String) : Option TitleResult :=
  match Store.GetTitleResolution st title year mediaType with
  | none => none
  | some c =>
    some { tmdbId := c.tmdbId, imdbId := c.imdbId, title := c.title
           year := c.year, mediaType := c.mediaType, overview := ""
           genres := [], keywords := [], voteCount := 0, voteAvg := 0
           runtimeMin := c.runtimeMin, country := c.country }

/-- `Client.cacheResult`: the cache entry is keyed by the fields of the
*result* (in particular the provider-returned title), not by the query. -/
def cacheResult (st : StoreState) (r : TitleResult) (now : Int) : StoreState :=
  Store.CacheTitleResolution st r.title r.year r.mediaType r.tmdbId r.imdbId
    r.country r.runtimeMin now

/-- `Client.SearchAndResolve`.  The third component counts external
*search* calls made by this invocation (0 on a cache hit or unknown media
type, 1 otherwise). -/
def SearchAndResolve (api : TMDbAPI) (title : String) (year : Int)
    (mediaType : String) (st : StoreState) (now : Int) :
    Except String TitleResult × StoreState × Nat :=
  match getCached st title year mediaType with
  | some cached => (.ok cached, st, 0)
  | none =>
    if mediaType == "movie" then
      match searchMovie api title year with
      | .error e => (.error e, st, 1)
      | .ok r => (.ok r, cacheResult st r now, 1)
    else if mediaType == "tv" then
      match searchTV api title year with
      | .error e => (.error e, st, 1)
      | .ok r => (.ok r, cacheResult st r now, 1)
    else (.error ("unknown media type: " ++ mediaType), st, 0)

end Client

/-- Mirror of `llm.Recommendation`. -/
structure LLMRec where
  title : String
  year : Int
  medium : String
  why : String
  keywords : List String
deriving DecidableEq

/-- Mirror of `resolve.ResolvedItem`. -/
structure ResolvedItem where
  title : String
  year : Int
  medium : String
  tmdbId : Int
  imdbId : String
  runtimeMin : Int
  voteCount : Int
  voteAvg : Rat
  why : String
  keywords : List String
  genres : List String
deriving DecidableEq

/-- Mirror of `resolve.ResolvedOutput`. -/
structure ResolvedOutput where
  category : String
  resolvedAt : Int
  items : List ResolvedItem
deriving DecidableEq

/-- `strings.ToLower`, written directly on the code points so that it
reduces in the kernel (`String.toLower` itself is the same map). -/
def lowerString (s : String) : String :=
  ⟨s.data.map Char.toLower⟩

/-- Media-type normalization at the top of the resolve loop:
lowercase, then map the synonyms "show"/"series" to "tv". -/
def normalizeMedium (medium : String) : String :=
  let m := lowerString medium
  if m == "show" || m == "series" then "tv" else m

/-- Mutable state of the resolve loop: the accumulating output, the
in-memory `alreadyRecommended` overlay, the store, and how many
`RecordRecommendation` calls have been issued (index into the
write-failure oracle). -/
structure LoopState where
  resolved : List ResolvedItem
  already : List Int
  store : StoreState
  recCalls : Nat

namespace Resolver

/-- One iteration of the loop body of `Resolver.Resolve` for a single
recommendation: normalize the medium, search TMDb (skip on failure), skip
if already recommended, skip if in the Plex inventory, otherwise emit the
item, record history (a failed write is only logged), and add the id to
the in-run overlay. -/
def step (api : TMDbAPI) (label : String) (now : Int) (recordFail : Nat → Bool)
    (ls : LoopState) (rec : LLMRec) : LoopState :=
  let mediaType := normalizeMedium rec.medium
  match Client.SearchAndResolve api rec.title rec.year mediaType ls.store now with
  | (.error _, st', _) => { ls with store := st' }
  | (.ok result, st', _) =>
    if ls.already.contains result.tmdbId then { ls with store := st' }
    else if Store.IsInPlexInventory st' result.tmdbId mediaType then
      { ls with store := st' }
    else
      let item : ResolvedItem :=
        { title := result.title, year := result.year, medium := mediaType
          tmdbId := result.tmdbId, imdbId := result.imdbId
          runtimeMin := result.runtimeMin, voteCount := result.voteCount
          voteAvg := result.voteAvg, why := rec.why, keywords := rec.keywords
          genres := result.genres }
      let st'' :=
        if recordFail ls.recCalls then st'
        else Store.RecordRecommendation st' label result.tmdbId mediaType now
      { resolved := ls.resolved ++ [item], already := result.tmdbId :: ls.already
        store := st'', recCalls := ls.recCalls + 1 }

/-- `Resolver.Resolve`: compute the 60-day history exclusion set, run the
loop over the candidates, and fail with the exhaustion error when nothing
survived. -/
def Resolve (api : TMDbAPI) (recs : List LLMRec) (categoryLabel : String)
    (st : StoreState) (now : Int) (recordFail : Nat → Bool) :
    Except String ResolvedOutput × StoreState :=
  let since := now - 60
  let alreadyRecommended := Store.GetRecommendationsSince st categoryLabel since
  let final := recs.foldl (step api categoryLabel now recordFail)
    ⟨[], alreadyRecommended, st, 0⟩
  if final.resolved.isEmpty then
    (.error "no recommendations could be resolved", final.store)
  else
    (.ok ⟨categoryLabel, now, final.resolved⟩, final.store)

end Resolver

/-- Write-failure oracle under which every `RecordRecommendation` succeeds. -/
def noRecordFail : Nat → Bool := fun _ => false

/-! ### Basic component lemmas -/

theorem Store.RecordRecommendation_cache (st : StoreState) (l : String) (i : Int)
    (m : String) (t : Int) : (Store.RecordRecommendation st l i m t).cache = st.cache := by
  unfold Store.RecordRecommendation
  (repeat' split) <;> rfl

theorem Store.RecordRecommendation_inventory (st : StoreState) (l : String) (i : Int)
    (m : String) (t : Int) :
    (Store.RecordRecommendation st l i m t).inventory = st.inventory := by
  unfold Store.RecordRecommendation
  (repeat' split) <;> rfl

theorem Client.cacheResult_history (st : StoreState) (r : TitleResult) (now : Int) :
    (Client.cacheResult st r now).history = st.history := rfl

theorem Client.cacheResult_inventory (st : StoreState) (r : TitleResult) (now : Int) :
    (Client.cacheResult st r now).inventory = st.inventory := rfl

theorem Client.SearchAndResolve_history (api : TMDbAPI) (t : String) (y : Int)
    (m : String) (st : StoreState) (now : Int) :
    (Client.SearchAndResolve api t y m st now).2.1.history = st.history := by
  unfold Client.SearchAndResolve
  (repeat' split) <;> rfl

theorem Client.SearchAndResolve_inventory (api : TMDbAPI) (t : String) (y : Int)
    (m : String) (st : StoreState) (now : Int) :
    (Client.SearchAndResolve api t y m st now).2.1.inventory = st.inventory := by
  unfold Client.SearchAndResolve
  (repeat' split) <;> rfl

theorem Store.IsInPlexInventory_congr {st st2 : StoreState}
    (h : st.inventory = st2.inventory) (i : Int) (m : String) :
    Store.IsInPlexInventory st i m = Store.IsInPlexInventory st2 i m := by
  unfold Store.IsInPlexInventory
  rw [h]

theorem Store.mem_GetRecommendationsSince {st : StoreState} {label : String}
    {since i : Int} :
    i ∈ Store.GetRecommendationsSince st label since ↔
      ∃ r ∈ st.history, r.label = label ∧ since ≤ r.lastSeenAt ∧ r.tmdbId = i := by
  unfold Store.GetRecommendationsSince
  simp only [List.mem_map, List.mem_filter, Bool.and_eq_true, beq_iff_eq,
    decide_eq_true_eq]
  tauto

theorem List.contains_iff_mem_int {l : List Int} {x : Int} :
    l.contains x = true ↔ x ∈ l := by
  simp [List.contains, List.elem_iff]

/-! ### The single-run loop invariant (claims C1, C2, C10) -/

/-- Loop invariant for one pipeline run starting from store `st0` with
start-of-run exclusion set `a0`: the inventory is never modified, the
overlay only grows above `a0`, every emitted item was in neither `a0` nor
the inventory (under its own medium), emitted ids are pairwise distinct,
and every emitted id is in the overlay. -/
structure RunInv (st0 : StoreState) (a0 : List Int) (ls : LoopState) : Prop where
  inv_eq : ls.store.inventory = st0.inventory
  a0_sub : a0 ⊆ ls.already
  items_fresh : ∀ item ∈ ls.resolved, item.tmdbId ∉ a0 ∧
      Store.IsInPlexInventory st0 item.tmdbId item.medium = false
  items_in_already : ∀ item ∈ ls.resolved, item.tmdbId ∈ ls.already
  items_distinct : ls.resolved.Pairwise (fun x y => x.tmdbId ≠ y.tmdbId)

theorem runInv_start (st0 : StoreState) (a0 : List Int) :
    RunInv st0 a0 ⟨[], a0, st0, 0⟩ :=
  { inv_eq := rfl
    a0_sub := fun _ hx => hx
    items_fresh := fun _ hmem => absurd hmem (List.not_mem_nil _)
    items_in_already := fun _ hmem => absurd hmem (List.not_mem_nil _)
    items_distinct := List.Pairwise.nil }

theorem runInv_step {st0 : StoreState} {a0 : List Int} (api : TMDbAPI)
    (label : String) (now : Int) (f : Nat → Bool) {ls : LoopState} (rec : LLMRec)
    (H : RunInv st0 a0 ls) : RunInv st0 a0 (Resolver.step api label now f ls rec) := by
  simp only [Resolver.step]
  rcases hSA : Client.SearchAndResolve api rec.title rec.year
    (normalizeMedium rec.medium) ls.store now with ⟨res, st', calls⟩
  have hinv : st'.inventory = ls.store.inventory := by
    have h := Client.SearchAndResolve_inventory api rec.title rec.year
      (normalizeMedium rec.medium) ls.store now
    rw [hSA] at h
    exact h
  cases res with
  | error e =>
    exact { inv_eq := hinv.trans H.inv_eq
            a0_sub := H.a0_sub
            items_fresh := H.items_fresh
            items_in_already := H.items_in_already
            items_distinct := H.items_distinct }
  | ok result =>
    dsimp only
    by_cases hmem : ls.already.contains result.tmdbId = true
    · rw [if_pos hmem]
      exact { inv_eq := hinv.trans H.inv_eq
              a0_sub := H.a0_sub
              items_fresh := H.items_fresh
              items_in_already := H.items_in_already
              items_distinct := H.items_distinct }
    · rw [if_neg hmem]
      by_cases hplex :
          Store.IsInPlexInventory st' result.tmdbId (normalizeMedium rec.medium) = true
      · rw [if_pos hplex]
        exact { inv_eq := hinv.trans H.inv_eq
                a0_sub := H.a0_sub
                items_fresh := H.items_fresh
                items_in_already := H.items_in_already
                items_distinct := H.items_distinct }
      · rw [if_neg hplex]
        have hnotmem : result.tmdbId ∉ ls.already := fun hx =>
          hmem (List.contains_iff_mem_int.mpr hx)
        refine
          { inv_eq := ?_
            a0_sub := fun x hx => List.mem_cons_of_mem _ (H.a0_sub hx)
            items_fresh := ?_
            items_in_already := ?_
            items_distinct := ?_ }
        · by_cases hf : f ls.recCalls = true
          · rw [if_pos hf]
            exact hinv.trans H.inv_eq
          · rw [if_neg hf]
            exact (Store.RecordRecommendation_inventory st' label result.tmdbId
              (normalizeMedium rec.medium) now).trans (hinv.trans H.inv_eq)
        · intro item hitem
          rcases List.mem_append.mp hitem with hold | hnew
          · exact H.items_fresh item hold
          · rcases List.mem_singleton.mp hnew with rfl
            refine ⟨fun hx => hnotmem (H.a0_sub hx), ?_⟩
            have hcongr := Store.IsInPlexInventory_congr (hinv.trans H.inv_eq)
              result.tmdbId (normalizeMedium rec.medium)
            exact hcongr ▸ (Bool.not_eq_true _ |>.mp hplex)
        · intro item hitem
          rcases List.mem_append.mp hitem with hold | hnew
          · exact List.mem_cons_of_mem _ (H.items_in_already item hold)
          · rcases List.mem_singleton.mp hnew with rfl
            exact List.mem_cons_self _ _
        · rw [List.pairwise_append]
          refine ⟨H.items_distinct, List.pairwise_singleton _ _, ?_⟩
          intro x hx y hy
          rcases List.mem_singleton.mp hy with rfl
          intro heq
          apply hnotmem
          have hx2 := H.items_in_already x hx
          rw [heq] at hx2
          exact hx2

theorem runInv_foldl {st0 : StoreState} {a0 : List Int} (api : TMDbAPI)
    (label : String) (now : Int) (f : Nat → Bool) :
    ∀ (recs : List LLMRec) (ls : LoopState), RunInv st0 a0 ls →
      RunInv st0 a0 (recs.foldl (Resolver.step api label now f) ls)
  | [], _, H => H
  | rec :: rest, ls, H =>
    runInv_foldl api label now f rest (Resolver.step api label now f ls rec)
      (runInv_step api label now f rec H)

/-- On a successful run, the returned items are exactly the loop's
accumulated survivors. -/
theorem Resolve_ok_items {api : TMDbAPI} {recs : List LLMRec} {label : String}
    {st : StoreState} {now : Int} {f : Nat → Bool} {out : ResolvedOutput}
    (h : (Resolver.Resolve api recs label st now f).1 = .ok out) :
    out.items = (recs.foldl (Resolver.step api label now f)
      ⟨[], Store.GetRecommendationsSince st label (now - 60), st, 0⟩).resolved := by
  simp only [Resolver.Resolve] at h
  split at h
  · exact absurd h (by simp)
  · simp only [Prod.fst, Except.ok.injEq] at h
    rw [← h]

/-! ### Concrete fixtures for counterexamples and witnesses -/

/-- Provider whose movie search always returns one hit: id 99, title "X";
all other endpoints fail. -/
def apiX : TMDbAPI :=
  { getSearchMovies := fun _ _ => .ok [⟨99, "X", "", 0, 0⟩]
    getMovieDetails := fun _ => .error "down"
    getMovieKeywords := fun _ => .error "down"
    getSearchTVShow := fun _ _ => .error "down"
    getTVDetails := fun _ => .error "down"
    getTVKeywords := fun _ => .error "down" }

/-- A movie candidate from the generative source. -/
def recX : LLMRec := ⟨"X", 2020, "movie", "w", []⟩

/-- A second movie candidate; under `apiX` it also resolves to id 99. -/
def recX2 : LLMRec := ⟨"X2", 2021, "movie", "w2", []⟩

def stEmpty : StoreState := ⟨[], [], []⟩

/-- Store whose inventory snapshot holds canonical id 99 as a *tv* entry. -/
def stInv99tv : StoreState := ⟨[], [], [⟨99, "tv", 0⟩]⟩

/-- Store with a history row for id 50 (tv) inside the 60-day window. -/
def stHist50tv : StoreState := ⟨[⟨"Docs", 50, "tv", 90, 90⟩], [], []⟩

/-- The item the pipeline emits for `recX` under `apiX`. -/
def itemX : ResolvedItem := ⟨"X", 2020, "movie", 99, "", 0, 0, 0, "w", [], []⟩

/-! ### Claim C1 -/

/-- C1 fails as stated: with the inventory snapshot holding canonical id
99 under medium "tv", a movie candidate resolving to id 99 is still
emitted, because `Resolver.Resolve` checks the inventory by
`(tmdb_id, media_type)` and not by canonical id alone.  So an output
item's canonical id need not be absent from the inventory snapshot. -/
theorem claim_C1_counterexample :
    (Resolver.Resolve apiX [recX] "Docs" stInv99tv 100 noRecordFail).1 =
      .ok ⟨"Docs", 100, [itemX]⟩ ∧
    ∃ r ∈ stInv99tv.inventory, r.tmdbId = itemX.tmdbId := by
  constructor
  · rfl
  · exact ⟨⟨99, "tv", 0⟩, List.mem_singleton.mpr rfl, rfl⟩

/-- C1 (amended): every item of a successful output has a canonical id
absent from the start-of-run 60-day history exclusion set, and absent from
the inventory snapshot *under the item's own medium* (the code keys the
inventory check by `(tmdb_id, media_type)`, not by id alone). -/
theorem claim_C1 (api : TMDbAPI) (recs : List LLMRec) (label : String)
    (st : StoreState) (now : Int) (f : Nat → Bool) (out : ResolvedOutput)
    (h : (Resolver.Resolve api recs label st now f).1 = .ok out) :
    ∀ item ∈ out.items,
      item.tmdbId ∉ Store.GetRecommendationsSince st label (now - 60) ∧
      Store.IsInPlexInventory st item.tmdbId item.medium = false := by
  have H := runInv_foldl api label now f recs
    ⟨[], Store.GetRecommendationsSince st label (now - 60), st, 0⟩
    (runInv_start st (Store.GetRecommendationsSince st label (now - 60)))
  intro item hmem
  rw [Resolve_ok_items h] at hmem
  exact H.items_fresh item hmem

/-- Witness for C1 (amended) at a concrete run that emits one item. -/
theorem claim_C1_witness :
    itemX.tmdbId ∉ Store.GetRecommendationsSince stEmpty "Docs" (100 - 60) ∧
    Store.IsInPlexInventory stEmpty itemX.tmdbId itemX.medium = false :=
  claim_C1 apiX [recX] "Docs" stEmpty 100 noRecordFail ⟨"Docs", 100, [itemX]⟩ rfl
    itemX (List.mem_singleton.mpr rfl)

/-! ### Claim C2 -/

/-- C2: within one successful output, no two `ResolvedItem`s share the
same `(canonical_id, medium)` pair — the in-run overlay (which is updated
before the history record is durably committed) suppresses later
duplicates.  This holds for every write-failure oracle `f`. -/
theorem claim_C2 (api : TMDbAPI) (recs : List LLMRec) (label : String)
    (st : StoreState) (now : Int) (f : Nat → Bool) (out : ResolvedOutput)
    (h : (Resolver.Resolve api recs label st now f).1 = .ok out) :
    out.items.Pairwise (fun x y => ¬(x.tmdbId = y.tmdbId ∧ x.medium = y.medium)) := by
  have H := runInv_foldl api label now f recs
    ⟨[], Store.GetRecommendationsSince st label (now - 60), st, 0⟩
    (runInv_start st (Store.GetRecommendationsSince st label (now - 60)))
  rw [Resolve_ok_items h]
  exact H.items_distinct.imp (fun hne hpair => hne hpair.1)

/-- Witness for C2: a batch with two candidates both resolving to id 99
yields an output whose items are pairwise distinct on (id, medium)
(the second candidate is suppressed by the overlay). -/
theorem claim_C2_witness :
    (⟨"Docs", 100, [itemX]⟩ : ResolvedOutput).items.Pairwise
      (fun x y => ¬(x.tmdbId = y.tmdbId ∧ x.medium = y.medium)) :=
  claim_C2 apiX [recX, recX2] "Docs" stEmpty 100 noRecordFail
    ⟨"Docs", 100, [itemX]⟩ rfl

/-! ### Claim C10 -/

/-- C10: deduplication is keyed by canonical id alone.  (a) A history row
for this category inside the window suppresses the id under *either*
medium (`GetRecommendationsSince` ignores `media_type`); (b) the in-run
overlay also ignores the medium, so output ids are pairwise distinct
outright, not merely distinct per (id, medium). -/
theorem claim_C10 (api : TMDbAPI) (recs : List LLMRec) (label : String)
    (st : StoreState) (now : Int) (f : Nat → Bool) (out : ResolvedOutput)
    (h : (Resolver.Resolve api recs label st now f).1 = .ok out) :
    (∀ item ∈ out.items, ∀ r ∈ st.history,
        r.label = label → now - 60 ≤ r.lastSeenAt → r.tmdbId ≠ item.tmdbId) ∧
    out.items.Pairwise (fun x y => x.tmdbId ≠ y.tmdbId) := by
  have H := runInv_foldl api label now f recs
    ⟨[], Store.GetRecommendationsSince st label (now - 60), st, 0⟩
    (runInv_start st (Store.GetRecommendationsSince st label (now - 60)))
  constructor
  · intro item hitem r hr hlab hwin heq
    rw [Resolve_ok_items h] at hitem
    exact (H.items_fresh item hitem).1
      (Store.mem_GetRecommendationsSince.mpr ⟨r, hr, hlab, hwin, heq⟩)
  · rw [Resolve_ok_items h]
    exact H.items_distinct

/-- Witness for C10: a run over a store holding a recent *tv* history row
for id 50; the emitted item (id 99) avoids every recent history id of any
medium, and the output ids are pairwise distinct. -/
theorem claim_C10_witness :
    (⟨"Docs", 50, "tv", 90, 90⟩ : HistoryRow).tmdbId ≠ itemX.tmdbId ∧
    (⟨"Docs", 100, [itemX]⟩ : ResolvedOutput).items.Pairwise
      (fun x y => x.tmdbId ≠ y.tmdbId) :=
  have h := claim_C10 apiX [recX] "Docs" stHist50tv 100 noRecordFail
    ⟨"Docs", 100, [itemX]⟩ rfl
  ⟨h.1 itemX (List.mem_singleton.mpr rfl) ⟨"Docs", 50, "tv", 90, 90⟩
    (List.mem_singleton.mpr rfl) rfl (by decide), h.2⟩

/-! ### Claim C6 -/

/-- C6: a run either fails with exactly the distinguishable error
"no recommendations could be resolved", or succeeds with at least one
item; an empty success is impossible. -/
theorem claim_C6 (api : TMDbAPI) (recs : List LLMRec) (label : String)
    (st : StoreState) (now : Int) (f : Nat → Bool) :
    (Resolver.Resolve api recs label st now f).1 =
      .error "no recommendations could be resolved" ∨
    ∃ out, (Resolver.Resolve api recs label st now f).1 = .ok out ∧
      out.items ≠ [] := by
  simp only [Resolver.Resolve]
  split
  · left
    rfl
  · next hc =>
    right
    refine ⟨_, rfl, ?_⟩
    intro hnil
    dsimp only at hnil
    rw [hnil] at hc
    exact hc rfl

/-! ### Claim C9: a failed history write never suppresses an emitted item -/

/-- `Client.SearchAndResolve` reads the store only through the cache, and
writes only the cache. -/
theorem Client.SearchAndResolve_cache_congr (api : TMDbAPI) (t : String)
    (y : Int) (m : String) {st1 st2 : StoreState} (hc : st1.cache = st2.cache)
    (now : Int) :
    (Client.SearchAndResolve api t y m st1 now).1 =
      (Client.SearchAndResolve api t y m st2 now).1 ∧
    (Client.SearchAndResolve api t y m st1 now).2.1.cache =
      (Client.SearchAndResolve api t y m st2 now).2.1.cache := by
  have hg : Client.getCached st1 t y m = Client.getCached st2 t y m := by
    unfold Client.getCached Store.GetTitleResolution Store.lookupCache
    rw [hc]
  unfold Client.SearchAndResolve
  rw [hg]
  cases hgc : Client.getCached st2 t y m with
  | some c => exact ⟨rfl, hc⟩
  | none =>
    (repeat' split) <;>
      simp_all [Client.cacheResult, Store.CacheTitleResolution]

/-- Two loop states that agree on everything except the history table. -/
def AgreeNoHist (ls ms : LoopState) : Prop :=
  ls.resolved = ms.resolved ∧ ls.already = ms.already ∧
  ls.recCalls = ms.recCalls ∧ ls.store.cache = ms.store.cache ∧
  ls.store.inventory = ms.store.inventory

theorem agreeNoHist_step (api : TMDbAPI) (label : String) (now : Int)
    (f g : Nat → Bool) {ls ms : LoopState} (rec : LLMRec)
    (H : AgreeNoHist ls ms) :
    AgreeNoHist (Resolver.step api label now f ls rec)
      (Resolver.step api label now g ms rec) := by
  obtain ⟨h1, h2, h3, h4, h5⟩ := H
  simp only [Resolver.step]
  rcases hSA1 : Client.SearchAndResolve api rec.title rec.year
    (normalizeMedium rec.medium) ls.store now with ⟨res1, st1', c1⟩
  rcases hSA2 : Client.SearchAndResolve api rec.title rec.year
    (normalizeMedium rec.medium) ms.store now with ⟨res2, st2', c2⟩
  have hcong := Client.SearchAndResolve_cache_congr api rec.title rec.year
    (normalizeMedium rec.medium) h4 now
  have hinvP1 := Client.SearchAndResolve_inventory api rec.title rec.year
    (normalizeMedium rec.medium) ls.store now
  have hinvP2 := Client.SearchAndResolve_inventory api rec.title rec.year
    (normalizeMedium rec.medium) ms.store now
  rw [hSA1, hSA2] at hcong
  rw [hSA1] at hinvP1
  rw [hSA2] at hinvP2
  obtain ⟨hres, hcache⟩ := hcong
  dsimp only at hres hcache hinvP1 hinvP2
  rw [← hres]
  cases res1 with
  | error e => exact ⟨h1, h2, h3, hcache, hinvP1.trans (h5.trans hinvP2.symm)⟩
  | ok result =>
    dsimp only
    have hplex : Store.IsInPlexInventory st1' result.tmdbId
        (normalizeMedium rec.medium) =
        Store.IsInPlexInventory st2' result.tmdbId (normalizeMedium rec.medium) :=
      Store.IsInPlexInventory_congr
        (hinvP1.trans (h5.trans hinvP2.symm)) _ _
    rw [h2, hplex]
    by_cases hmem : ms.already.contains result.tmdbId = true
    · rw [if_pos hmem, if_pos hmem]
      exact ⟨h1, rfl, h3, hcache, hinvP1.trans (h5.trans hinvP2.symm)⟩
    · rw [if_neg hmem, if_neg hmem]
      by_cases hin : Store.IsInPlexInventory st2' result.tmdbId
          (normalizeMedium rec.medium) = true
      · rw [if_pos hin, if_pos hin]
        exact ⟨h1, rfl, h3, hcache, hinvP1.trans (h5.trans hinvP2.symm)⟩
      · rw [if_neg hin, if_neg hin]
        refine ⟨by rw [h1], rfl, by rw [h3], ?_, ?_⟩
        · rw [h3]
          by_cases hf : f ls.recCalls = true
          · by_cases hgc : g ls.recCalls = true
            · rw [h3] at hf hgc
              rw [if_pos hf, if_pos hgc]
              exact hcache
            · rw [h3] at hf hgc
              rw [if_pos hf, if_neg hgc]
              exact hcache.trans (Store.RecordRecommendation_cache st2' label
                result.tmdbId (normalizeMedium rec.medium) now).symm
          · by_cases hgc : g ls.recCalls = true
            · rw [h3] at hf hgc
              rw [if_neg hf, if_pos hgc]
              exact (Store.RecordRecommendation_cache st1' label
                result.tmdbId (normalizeMedium rec.medium) now).trans hcache
            · rw [h3] at hf hgc
              rw [if_neg hf, if_neg hgc]
              exact (Store.RecordRecommendation_cache st1' label
                result.tmdbId (normalizeMedium rec.medium) now).trans
                (hcache.trans (Store.RecordRecommendation_cache st2' label
                  result.tmdbId (normalizeMedium rec.medium) now).symm)
        · have hinvEq : st1'.inventory = st2'.inventory :=
            hinvP1.trans (h5.trans hinvP2.symm)
          rw [h3]
          by_cases hf : f ls.recCalls = true
          · by_cases hgc : g ls.recCalls = true
            · rw [h3] at hf hgc
              rw [if_pos hf, if_pos hgc]
              exact hinvEq
            · rw [h3] at hf hgc
              rw [if_pos hf, if_neg hgc]
              exact hinvEq.trans (Store.RecordRecommendation_inventory st2' label
                result.tmdbId (normalizeMedium rec.medium) now).symm
          · by_cases hgc : g ls.recCalls = true
            · rw [h3] at hf hgc
              rw [if_neg hf, if_pos hgc]
              exact (Store.RecordRecommendation_inventory st1' label
                result.tmdbId (normalizeMedium rec.medium) now).trans hinvEq
            · rw [h3] at hf hgc
              rw [if_neg hf, if_neg hgc]
              exact (Store.RecordRecommendation_inventory st1' label
                result.tmdbId (normalizeMedium rec.medium) now).trans
                (hinvEq.trans (Store.RecordRecommendation_inventory st2' label
                  result.tmdbId (normalizeMedium rec.medium) now).symm)

theorem agreeNoHist_foldl (api : TMDbAPI) (label : String) (now : Int)
    (f g : Nat → Bool) :
    ∀ (recs : List LLMRec) (ls ms : LoopState), AgreeNoHist ls ms →
      AgreeNoHist (recs.foldl (Resolver.step api label now f) ls)
        (recs.foldl (Resolver.step api label now g) ms)
  | [], _, _, H => H
  | rec :: rest, ls, ms, H =>
    agreeNoHist_foldl api label now f g rest _ _
      (agreeNoHist_step api label now f g rec H)

/-- C9: the returned value of a run does not depend on which
`RecordRecommendation` calls fail: an item appended to the output stays in
the output even when its history write errors. -/
theorem claim_C9 (api : TMDbAPI) (recs : List LLMRec) (label : String)
    (st : StoreState) (now : Int) (f : Nat → Bool) :
    (Resolver.Resolve api recs label st now f).1 =
      (Resolver.Resolve api recs label st now noRecordFail).1 := by
  have H := agreeNoHist_foldl api label now f noRecordFail recs
    ⟨[], Store.GetRecommendationsSince st label (now - 60), st, 0⟩
    ⟨[], Store.GetRecommendationsSince st label (now - 60), st, 0⟩
    ⟨rfl, rfl, rfl, rfl, rfl⟩
  simp only [Resolver.Resolve]
  rw [H.1]
  split <;> rfl

/-! ### Claim C5: history upsert keeps at most one row per key -/

/-- At most one history row per `(label, tmdb_id, media_type)` key. -/
def KeyUnique (h : List HistoryRow) : Prop :=
  h.Pairwise (fun r r2 =>
    ¬(r.label = r2.label ∧ r.tmdbId = r2.tmdbId ∧ r.mediaType = r2.mediaType))

/-- The upsert's UPDATE branch changes only `last_seen_at`. -/
theorem upd_preserves_key (label : String) (i : Int) (m : String) (t : Int)
    (r : HistoryRow) :
    (if r.keyIs label i m then { r with lastSeenAt := t } else r).label = r.label ∧
    (if r.keyIs label i m then { r with lastSeenAt := t } else r).tmdbId = r.tmdbId ∧
    (if r.keyIs label i m then { r with lastSeenAt := t } else r).mediaType =
      r.mediaType := by
  split <;> exact ⟨rfl, rfl, rfl⟩

theorem HistoryRow.keyIs_iff {r : HistoryRow} {label : String} {i : Int}
    {m : String} :
    r.keyIs label i m = true ↔ r.label = label ∧ r.tmdbId = i ∧ r.mediaType = m := by
  simp [HistoryRow.keyIs, Bool.and_eq_true, beq_iff_eq, and_assoc]

theorem RecordRecommendation_keyUnique {st : StoreState}
    (H : KeyUnique st.history) (label : String) (i : Int) (m : String) (t : Int) :
    KeyUnique (Store.RecordRecommendation st label i m t).history := by
  unfold Store.RecordRecommendation
  split
  · split
    · refine List.pairwise_map.mpr (H.imp ?_)
      intro a b hab hk
      obtain ⟨ha1, ha2, ha3⟩ := upd_preserves_key label i m t a
      obtain ⟨hb1, hb2, hb3⟩ := upd_preserves_key label i m t b
      rw [ha1, ha2, ha3, hb1, hb2, hb3] at hk
      exact hab hk
    · next hany =>
      rw [KeyUnique, List.pairwise_append]
      refine ⟨H, List.pairwise_singleton _ _, ?_⟩
      intro r hr r2 hr2 hk
      rcases List.mem_singleton.mp hr2 with rfl
      exact hany (List.any_eq_true.mpr ⟨r, hr, HistoryRow.keyIs_iff.mpr hk⟩)
  · exact H

/-- Folding a sequence of `RecordRecommendation` operations
`(label, tmdb_id, media_type, time)` over a store. -/
def applyRecordOps (st : StoreState) (ops : List (String × Int × String × Int)) :
    StoreState :=
  ops.foldl (fun s op => Store.RecordRecommendation s op.1 op.2.1 op.2.2.1 op.2.2.2) st

theorem applyRecordOps_keyUnique :
    ∀ (ops : List (String × Int × String × Int)) (st : StoreState),
      KeyUnique st.history → KeyUnique (applyRecordOps st ops).history
  | [], _, H => H
  | op :: rest, st, H =>
    applyRecordOps_keyUnique rest _
      (RecordRecommendation_keyUnique H op.1 op.2.1 op.2.2.1 op.2.2.2)

/-- C5: (a) any sequence of `RecordRecommendation` operations starting from
the empty history leaves at most one row per `(label, tmdb_id, media_type)`
key; (b) recording the same key twice (timestamps `t1` then `t2`) leaves
exactly one row for that key, with `first_seen_at = t1` and
`last_seen_at = t2`. -/
theorem claim_C5 (ops : List (String × Int × String × Int)) (st : StoreState)
    (label : String) (i : Int) (m : String) (t1 t2 : Int)
    (hv : validMediaType m = true)
    (habs : ∀ r ∈ st.history, r.keyIs label i m = false) :
    KeyUnique (applyRecordOps ⟨[], [], []⟩ ops).history ∧
    ((Store.RecordRecommendation (Store.RecordRecommendation st label i m t1)
        label i m t2).history.filter (fun r => r.keyIs label i m)) =
      [⟨label, i, m, t1, t2⟩] := by
  constructor
  · exact applyRecordOps_keyUnique ops _ List.Pairwise.nil
  · have hrow : (⟨label, i, m, t1, t1⟩ : HistoryRow).keyIs label i m = true :=
      HistoryRow.keyIs_iff.mpr ⟨rfl, rfl, rfl⟩
    have h1 : Store.RecordRecommendation st label i m t1 =
        { st with history := st.history ++ [⟨label, i, m, t1, t1⟩] } := by
      unfold Store.RecordRecommendation
      rw [if_pos hv, if_neg]
      intro hany
      obtain ⟨r, hr, hk⟩ := List.any_eq_true.mp hany
      rw [habs r hr] at hk
      exact Bool.false_ne_true hk
    have hany2 : ((st.history ++ [(⟨label, i, m, t1, t1⟩ : HistoryRow)]).any
        (fun r => r.keyIs label i m)) = true := by
      rw [List.any_append]
      simp [hrow]
    have h2 : (Store.RecordRecommendation (Store.RecordRecommendation st label i m t1)
        label i m t2).history =
        st.history.map (fun r =>
          if r.keyIs label i m then { r with lastSeenAt := t2 } else r) ++
          [⟨label, i, m, t1, t2⟩] := by
      rw [h1]
      unfold Store.RecordRecommendation
      rw [if_pos hv, if_pos hany2]
      dsimp only
      rw [List.map_append]
      congr 1
      simp [hrow]
    have hid : st.history.map (fun r =>
        if r.keyIs label i m then { r with lastSeenAt := t2 } else r) = st.history := by
      refine (List.map_congr_left ?_).trans (List.map_id _)
      intro r hr
      exact if_neg (by rw [habs r hr]; exact Bool.false_ne_true)
    rw [h2, hid, List.filter_append]
    have hfnil : st.history.filter (fun r => r.keyIs label i m) = [] :=
      List.filter_eq_nil_iff.mpr (fun r hr => by rw [habs r hr]; exact Bool.false_ne_true)
    rw [hfnil, List.nil_append]
    have hrow2 : (⟨label, i, m, t1, t2⟩ : HistoryRow).keyIs label i m = true :=
      HistoryRow.keyIs_iff.mpr ⟨rfl, rfl, rfl⟩
    simp [List.filter, hrow2]

/-- Witness for C5: the spec's concrete scenario — id 42 under
"True Crime", recorded at day 0 and again at day 10. -/
theorem claim_C5_witness :
    KeyUnique (applyRecordOps ⟨[], [], []⟩
      [("True Crime", 42, "movie", 0), ("True Crime", 42, "movie", 10)]).history ∧
    ((Store.RecordRecommendation (Store.RecordRecommendation stEmpty "True Crime"
        42 "movie" 0) "True Crime" 42 "movie" 10).history.filter
      (fun r => r.keyIs "True Crime" 42 "movie")) =
      [⟨"True Crime", 42, "movie", 0, 10⟩] :=
  claim_C5 [("True Crime", 42, "movie", 0), ("True Crime", 42, "movie", 10)]
    stEmpty "True Crime" 42 "movie" 0 10 (by decide)
    (fun r hr => absurd hr (List.not_mem_nil r))

/-! ### Claim C7: the inventory replace is all-or-nothing -/

theorem updateInventoryGo_ok {now : Int} {failAt : Nat → Bool} :
    ∀ (items : List (Int × String)) (k : Nat) (acc rows : List InventoryRow),
      Store.updateInventoryGo now failAt items k acc = .ok rows →
      rows = acc ++ items.map (fun p => ⟨p.1, p.2, now⟩)
  | [], _, acc, rows, h => by
    simp only [Store.updateInventoryGo, Except.ok.injEq] at h
    rw [← h, List.map_nil, List.append_nil]
  | (id, m) :: rest, k, acc, rows, h => by
    simp only [Store.updateInventoryGo] at h
    split at h
    · exact absurd h (by simp)
    · split at h
      · exact absurd h (by simp)
      · split at h
        · exact absurd h (by simp)
        · have := updateInventoryGo_ok rest (k + 1) (acc ++ [⟨id, m, now⟩]) rows h
          rw [this, List.map_cons, List.append_assoc, List.singleton_append]

/-- C7: `UpdatePlexInventory` is atomic: whatever the per-insert and commit
failure pattern, the call either succeeds leaving the inventory equal to
exactly the new snapshot (history and cache untouched), or fails leaving
the whole store exactly as it was.  No mixed state is observable. -/
theorem claim_C7 (st : StoreState) (items : List (Int × String)) (now : Int)
    (failAt : Nat → Bool) (commitFail : Bool) :
    Store.UpdatePlexInventory st items now failAt commitFail =
      ({ st with inventory := items.map (fun p => ⟨p.1, p.2, now⟩) }, true) ∨
    Store.UpdatePlexInventory st items now failAt commitFail = (st, false) := by
  unfold Store.UpdatePlexInventory
  cases hgo : Store.updateInventoryGo now failAt items 0 [] with
  | error e => exact Or.inr rfl
  | ok rows =>
    cases commitFail with
    | true => exact Or.inr rfl
    | false =>
      left
      have := updateInventoryGo_ok items 0 [] rows hgo
      rw [List.nil_append] at this
      rw [this]
      rfl

/-! ### Claim C8: details/keywords failures degrade, never abort -/

/-- Reduction of `searchMovie` once the search call is known to succeed. -/
theorem Client.searchMovie_ok {api : TMDbAPI} {t : String} {y : Int}
    {movie : SearchResult} {restM : List SearchResult}
    (hm : api.getSearchMovies t y = .ok (movie :: restM)) :
    Client.searchMovie api t y =
      (let keywordList : List String :=
        match api.getMovieKeywords movie.id with
        | .ok kws => kws
        | .error _ => []
      let base : TitleResult :=
        { tmdbId := movie.id, imdbId := "", title := movie.title, year := y
          mediaType := "movie", overview := movie.overview, genres := []
          keywords := keywordList, voteCount := movie.voteCount
          voteAvg := movie.voteAvg, runtimeMin := 0, country := "" }
      match api.getMovieDetails movie.id with
      | .error _ => .ok base
      | .ok d =>
        .ok { base with
                imdbId := d.imdbId, runtimeMin := d.runtime, genres := d.genres
                country := d.productionCountries.headD "" }) := by
  unfold Client.searchMovie
  rw [hm]

/-- Reduction of `searchTV` once the search call is known to succeed. -/
theorem Client.searchTV_ok {api : TMDbAPI} {t : String} {y : Int}
    {show_ : SearchResult} {restT : List SearchResult}
    (ht : api.getSearchTVShow t y = .ok (show_ :: restT)) :
    Client.searchTV api t y =
      (let keywordList : List String :=
        match api.getTVKeywords show_.id with
        | .ok kws => kws
        | .error _ => []
      let base : TitleResult :=
        { tmdbId := show_.id, imdbId := "", title := show_.title, year := y
          mediaType := "tv", overview := show_.overview, genres := []
          keywords := keywordList, voteCount := show_.voteCount
          voteAvg := show_.voteAvg, runtimeMin := 0, country := "" }
      match api.getTVDetails show_.id with
      | .error _ => .ok base
      | .ok d =>
        .ok { base with
                genres := d.genres, runtimeMin := d.episodeRunTime.headD 0
                country := d.originCountry.headD "" }) := by
  unfold Client.searchTV
  rw [ht]

/-- C8: when the primary search succeeds, `searchMovie`/`searchTV` return
a successful result for every outcome of the details and keywords calls;
when the details call failed the detail fields are empty/zero, and when
the keywords call failed the keyword list is empty. -/
theorem claim_C8 (api : TMDbAPI) (t : String) (y : Int)
    (movie show_ : SearchResult) (restM restT : List SearchResult)
    (hm : api.getSearchMovies t y = .ok (movie :: restM))
    (ht : api.getSearchTVShow t y = .ok (show_ :: restT)) :
    (∃ r, Client.searchMovie api t y = .ok r ∧
      (∀ e, api.getMovieDetails movie.id = .error e →
        r.genres = [] ∧ r.runtimeMin = 0 ∧ r.country = "" ∧ r.imdbId = "") ∧
      (∀ e, api.getMovieKeywords movie.id = .error e → r.keywords = [])) ∧
    (∃ r, Client.searchTV api t y = .ok r ∧
      (∀ e, api.getTVDetails show_.id = .error e →
        r.genres = [] ∧ r.runtimeMin = 0 ∧ r.country = "") ∧
      (∀ e, api.getTVKeywords show_.id = .error e → r.keywords = [])) := by
  constructor
  · rw [Client.searchMovie_ok hm]
    dsimp only
    cases hd : api.getMovieDetails movie.id with
    | error e =>
      refine ⟨_, rfl, fun e2 _ => ⟨rfl, rfl, rfl, rfl⟩, fun e2 he2 => ?_⟩
      dsimp only
      rw [he2]
    | ok d =>
      refine ⟨_, rfl, fun e2 he2 => Except.noConfusion he2,
        fun e2 he2 => ?_⟩
      dsimp only
      rw [he2]
  · rw [Client.searchTV_ok ht]
    dsimp only
    cases hd : api.getTVDetails show_.id with
    | error e =>
      refine ⟨_, rfl, fun e2 _ => ⟨rfl, rfl, rfl⟩, fun e2 he2 => ?_⟩
      dsimp only
      rw [he2]
    | ok d =>
      refine ⟨_, rfl, fun e2 he2 => Except.noConfusion he2,
        fun e2 he2 => ?_⟩
      dsimp only
      rw [he2]

/-- Provider with successful movie and tv searches but failing details and
keywords endpoints. -/
def apiBoth : TMDbAPI :=
  { getSearchMovies := fun _ _ => .ok [⟨7, "M", "", 3, 0⟩]
    getMovieDetails := fun _ => .error "down"
    getMovieKeywords := fun _ => .error "down"
    getSearchTVShow := fun _ _ => .ok [⟨8, "T", "", 4, 0⟩]
    getTVDetails := fun _ => .error "down"
    getTVKeywords := fun _ => .error "down" }

/-! ### Claim C4: cache behaviour of SearchAndResolve -/

theorem Client.searchMovie_fields {api : TMDbAPI} {t : String} {y : Int}
    {r : TitleResult} (h : Client.searchMovie api t y = .ok r) :
    r.year = y ∧ r.mediaType = "movie" := by
  unfold Client.searchMovie at h
  split at h
  · exact absurd h (by simp)
  · exact absurd h (by simp)
  · dsimp only at h
    split at h <;>
      (simp only [Except.ok.injEq] at h; rw [← h]; exact ⟨rfl, rfl⟩)

theorem Client.searchTV_fields {api : TMDbAPI} {t : String} {y : Int}
    {r : TitleResult} (h : Client.searchTV api t y = .ok r) :
    r.year = y ∧ r.mediaType = "tv" := by
  unfold Client.searchTV at h
  split at h
  · exact absurd h (by simp)
  · exact absurd h (by simp)
  · dsimp only at h
    split at h <;>
      (simp only [Except.ok.injEq] at h; rw [← h]; exact ⟨rfl, rfl⟩)

/-- After a successful resolution whose returned title equals the queried
title, the post-state cache answers the same query with the same id. -/
theorem SearchAndResolve_hit_after {api : TMDbAPI} {t : String} {y : Int}
    {m : String} {st : StoreState} {now1 : Int} {r : TitleResult}
    (hm : m = "movie" ∨ m = "tv")
    (h1 : (Client.SearchAndResolve api t y m st now1).1 = .ok r)
    (htitle : r.title = t) :
    ∃ c, Client.getCached (Client.SearchAndResolve api t y m st now1).2.1 t y m =
        some c ∧ c.tmdbId = r.tmdbId := by
  cases hgc : Client.getCached st t y m with
  | some cached =>
    have hSA : Client.SearchAndResolve api t y m st now1 = (.ok cached, st, 0) := by
      unfold Client.SearchAndResolve
      rw [hgc]
    rw [hSA] at h1 ⊢
    simp only [Except.ok.injEq] at h1
    exact ⟨cached, hgc, by rw [h1]⟩
  | none =>
    rcases hm with rfl | rfl
    · cases hsm : Client.searchMovie api t y with
      | error e =>
        have hSA : Client.SearchAndResolve api t y "movie" st now1 =
            (.error e, st, 1) := by
          unfold Client.SearchAndResolve
          rw [hgc, hsm]
          rfl
        rw [hSA] at h1
        exact absurd h1 (by simp)
      | ok rr =>
        have hSA : Client.SearchAndResolve api t y "movie" st now1 =
            (.ok rr, Client.cacheResult st rr now1, 1) := by
          unfold Client.SearchAndResolve
          rw [hgc, hsm]
          rfl
        rw [hSA] at h1
        simp only [Except.ok.injEq] at h1
        subst h1
        obtain ⟨hy, hmt⟩ := Client.searchMovie_fields hsm
        rw [hSA]
        dsimp only
        unfold Client.getCached Store.GetTitleResolution Store.lookupCache
          Client.cacheResult Store.CacheTitleResolution
        dsimp only
        rw [List.find?_cons_of_pos]
        · exact ⟨_, rfl, rfl⟩
        · simp [htitle, hy, hmt]
    · cases hsm : Client.searchTV api t y with
      | error e =>
        have hSA : Client.SearchAndResolve api t y "tv" st now1 =
            (.error e, st, 1) := by
          unfold Client.SearchAndResolve
          rw [hgc, hsm]
          rfl
        rw [hSA] at h1
        exact absurd h1 (by simp)
      | ok rr =>
        have hSA : Client.SearchAndResolve api t y "tv" st now1 =
            (.ok rr, Client.cacheResult st rr now1, 1) := by
          unfold Client.SearchAndResolve
          rw [hgc, hsm]
          rfl
        rw [hSA] at h1
        simp only [Except.ok.injEq] at h1
        subst h1
        obtain ⟨hy, hmt⟩ := Client.searchTV_fields hsm
        rw [hSA]
        dsimp only
        unfold Client.getCached Store.GetTitleResolution Store.lookupCache
          Client.cacheResult Store.CacheTitleResolution
        dsimp only
        rw [List.find?_cons_of_pos]
        · exact ⟨_, rfl, rfl⟩
        · simp [htitle, hy, hmt]

/-- Provider that returns a search hit whose title ("B") differs from the
query ("A"): the cache entry is then written under the returned title. -/
def api4 : TMDbAPI :=
  { getSearchMovies := fun _ _ => .ok [⟨7, "B", "", 0, 0⟩]
    getMovieDetails := fun _ => .error "down"
    getMovieKeywords := fun _ => .error "down"
    getSearchTVShow := fun _ _ => .error "down"
    getTVDetails := fun _ => .error "down"
    getTVKeywords := fun _ => .error "down" }

/-- The result of `searchMovie api4 "A" 2020`. -/
def titleB : TitleResult := ⟨7, "", "B", 2020, "movie", "", [], [], 0, 0, 0, ""⟩

/-- C4 fails as stated: `cacheResult` keys the cache entry by the
provider-returned title (`result.Title`), not by the queried title, so
after a successful first resolution of ("A", 2020, movie) whose first
search result is titled "B", the second resolution of the same triple
misses the cache and performs a second external search call (count 1,
not 0). -/
theorem claim_C4_counterexample :
    (Client.SearchAndResolve api4 "A" 2020 "movie" stEmpty 10).1 = .ok titleB ∧
    (Client.SearchAndResolve api4 "A" 2020 "movie" stEmpty 10).2.1.cache ≠
      stEmpty.cache ∧
    (Client.SearchAndResolve api4 "A" 2020 "movie"
        (Client.SearchAndResolve api4 "A" 2020 "movie" stEmpty 10).2.1 11).2.2 = 1 := by
  refine ⟨rfl, ?_, rfl⟩
  intro h
  exact absurd h (by decide)

/-- C4 (amended): if the first resolution of `(t, y, m)` succeeds *and the
returned record's title equals the queried title* (as in the
("Inside Job", 2010, movie) example), then the second resolution of the
same triple performs zero external search calls and returns the cached
canonical id. -/
theorem claim_C4 (api : TMDbAPI) (t : String) (y : Int) (m : String)
    (st : StoreState) (now1 now2 : Int) (r : TitleResult)
    (hm : m = "movie" ∨ m = "tv")
    (h1 : (Client.SearchAndResolve api t y m st now1).1 = .ok r)
    (htitle : r.title = t) :
    (Client.SearchAndResolve api t y m
        (Client.SearchAndResolve api t y m st now1).2.1 now2).2.2 = 0 ∧
    ∃ r2, (Client.SearchAndResolve api t y m
        (Client.SearchAndResolve api t y m st now1).2.1 now2).1 = .ok r2 ∧
      r2.tmdbId = r.tmdbId := by
  obtain ⟨c, hc, hid⟩ := SearchAndResolve_hit_after hm h1 htitle
  set stA := (Client.SearchAndResolve api t y m st now1).2.1 with hstA
  have hSA2 : Client.SearchAndResolve api t y m stA now2 = (.ok c, stA, 0) := by
    unfold Client.SearchAndResolve
    rw [hc]
  rw [hSA2]
  exact ⟨rfl, c, rfl, hid⟩

/-- The result of `searchMovie apiX "X" 2020` (title matches the query). -/
def titleX : TitleResult := ⟨99, "", "X", 2020, "movie", "", [], [], 0, 0, 0, ""⟩

/-! ### Infrastructure for claim C3 -/

/-- The search dispatch of `SearchAndResolve` on a cache miss, as a
function of the query alone (it does not read or write the store). -/
def freshResult (api : TMDbAPI) (t : String) (y : Int) (m : String) :
    Except String TitleResult :=
  if m == "movie" then Client.searchMovie api t y
  else if m == "tv" then Client.searchTV api t y
  else .error ("unknown media type: " ++ m)

/-- Number of external search calls one `SearchAndResolve` miss makes. -/
def searchCalls (m : String) : Nat :=
  if m == "movie" || m == "tv" then 1 else 0

/-- The partial `TitleResult` a cache hit produces. -/
def cachedResult (e : CacheRow) : TitleResult :=
  { tmdbId := e.tmdbId, imdbId := e.imdbId, title := e.title, year := e.year
    mediaType := e.mediaType, overview := "", genres := [], keywords := []
    voteCount := 0, voteAvg := 0, runtimeMin := e.runtimeMin, country := e.country }

theorem Client.getCached_none {st : StoreState} {t : String} {y : Int}
    {m : String} (h : Store.lookupCache st.cache t y m = none) :
    Client.getCached st t y m = none := by
  unfold Client.getCached Store.GetTitleResolution
  rw [h]

theorem Client.getCached_some {st : StoreState} {t : String} {y : Int}
    {m : String} {e : CacheRow} (h : Store.lookupCache st.cache t y m = some e) :
    Client.getCached st t y m = some (cachedResult e) := by
  unfold Client.getCached Store.GetTitleResolution cachedResult
  rw [h]

theorem SearchAndResolve_hit (api : TMDbAPI) (now : Int) {t : String} {y : Int}
    {m : String} {st : StoreState} {e : CacheRow}
    (h : Store.lookupCache st.cache t y m = some e) :
    Client.SearchAndResolve api t y m st now = (.ok (cachedResult e), st, 0) := by
  unfold Client.SearchAndResolve
  rw [Client.getCached_some h]

theorem SearchAndResolve_miss {api : TMDbAPI} {t : String} {y : Int} {m : String}
    {st : StoreState} {now : Int}
    (h : Store.lookupCache st.cache t y m = none) :
    Client.SearchAndResolve api t y m st now =
      (match freshResult api t y m with
       | .error e => (.error e, st, searchCalls m)
       | .ok r => (.ok r, Client.cacheResult st r now, searchCalls m)) := by
  unfold Client.SearchAndResolve freshResult searchCalls
  rw [Client.getCached_none h]
  by_cases h1 : (m == "movie") = true
  · simp only [h1, Bool.true_or]
    cases Client.searchMovie api t y <;> rfl
  · rw [Bool.not_eq_true] at h1
    by_cases h2 : (m == "tv") = true
    · simp only [h1, h2, Bool.false_or]
      cases Client.searchTV api t y <;> rfl
    · rw [Bool.not_eq_true] at h2
      simp only [h1, h2, Bool.false_or]
      rfl

theorem SearchAndResolve_miss_err (now : Int) {api : TMDbAPI} {t : String}
    {y : Int} {m : String} {st : StoreState} {err : String}
    (h : Store.lookupCache st.cache t y m = none)
    (hf : freshResult api t y m = .error err) :
    Client.SearchAndResolve api t y m st now = (.error err, st, searchCalls m) := by
  rw [SearchAndResolve_miss h, hf]

theorem SearchAndResolve_miss_ok (now : Int) {api : TMDbAPI} {t : String}
    {y : Int} {m : String} {st : StoreState} {rr : TitleResult}
    (h : Store.lookupCache st.cache t y m = none)
    (hf : freshResult api t y m = .ok rr) :
    Client.SearchAndResolve api t y m st now =
      (.ok rr, Client.cacheResult st rr now, searchCalls m) := by
  rw [SearchAndResolve_miss h, hf]

theorem lookupCache_some_fields {C : List CacheRow} {t : String} {y : Int}
    {m : String} {e : CacheRow} (h : Store.lookupCache C t y m = some e) :
    e.title = t ∧ e.year = y ∧ e.mediaType = m := by
  have := List.find?_some h
  simp only [Bool.and_eq_true, beq_iff_eq] at this
  tauto

theorem lookupCache_cons {e : CacheRow} {C : List CacheRow} {t : String}
    {y : Int} {m : String} :
    Store.lookupCache (e :: C) t y m =
      if (e.title == t && e.year == y && e.mediaType == m) then some e
      else Store.lookupCache C t y m := by
  unfold Store.lookupCache
  rw [List.find?_cons]
  by_cases hp : (e.title == t && e.year == y && e.mediaType == m) = true
  · rw [hp]
    rfl
  · rw [Bool.not_eq_true] at hp
    rw [hp]
    rfl

theorem freshResult_fields {api : TMDbAPI} {t : String} {y : Int} {m : String}
    {rr : TitleResult} (h : freshResult api t y m = .ok rr) :
    rr.year = y ∧ rr.mediaType = m ∧ validMediaType m = true := by
  unfold freshResult at h
  by_cases h1 : (m == "movie") = true
  · rw [if_pos h1] at h
    obtain ⟨hy, hm⟩ := Client.searchMovie_fields h
    have : m = "movie" := by simpa [beq_iff_eq] using h1
    subst this
    exact ⟨hy, hm, rfl⟩
  · rw [if_neg h1] at h
    by_cases h2 : (m == "tv") = true
    · rw [if_pos h2] at h
      obtain ⟨hy, hm⟩ := Client.searchTV_fields h
      have : m = "tv" := by simpa [beq_iff_eq] using h2
      subst this
      exact ⟨hy, hm, rfl⟩
    · rw [if_neg h2] at h
      exact absurd h (by simp)

/-- `i` is excluded (for medium `m`): present in the id set `A` or in the
inventory of `inv0`. -/
def Handled (A : List Int) (inv0 : StoreState) (i : Int) (m : String) : Prop :=
  i ∈ A ∨ Store.IsInPlexInventory inv0 i m = true

/-- Resolving `(t, y, m)` against cache `C` (hit) or the provider (miss)
can only produce an excluded id — or fail. -/
def CoveredKey (api : TMDbAPI) (A : List Int) (inv0 : StoreState)
    (C : List CacheRow) (t : String) (y : Int) (m : String) : Prop :=
  match Store.lookupCache C t y m with
  | some e => Handled A inv0 e.tmdbId m
  | none =>
    match freshResult api t y m with
    | .error _ => True
    | .ok r => Handled A inv0 r.tmdbId m

theorem handled_mono {A A2 : List Int} {inv0 : StoreState} {i : Int} {m : String}
    (hA : A ⊆ A2) : Handled A inv0 i m → Handled A2 inv0 i m
  | .inl h => .inl (hA h)
  | .inr h => .inr h

theorem coveredKey_mono {api : TMDbAPI} {A A2 : List Int} {inv0 : StoreState}
    {C : List CacheRow} {t : String} {y : Int} {m : String} (hA : A ⊆ A2) :
    CoveredKey api A inv0 C t y m → CoveredKey api A2 inv0 C t y m := by
  unfold CoveredKey
  split
  · exact handled_mono hA
  · split
    · exact fun h => h
    · exact handled_mono hA

theorem coveredKey_cons {api : TMDbAPI} {A : List Int} {inv0 : StoreState}
    {C : List CacheRow} {t : String} {y : Int} {m : String} {e : CacheRow}
    (hsafe : Handled A inv0 e.tmdbId e.mediaType) :
    CoveredKey api A inv0 C t y m → CoveredKey api A inv0 (e :: C) t y m := by
  unfold CoveredKey
  rw [lookupCache_cons]
  by_cases hp : (e.title == t && e.year == y && e.mediaType == m) = true
  · rw [if_pos hp]
    intro _
    have hm : e.mediaType = m := by
      simp only [Bool.and_eq_true, beq_iff_eq] at hp
      exact hp.2
    exact hm ▸ hsafe
  · rw [if_neg hp]
    exact fun h => h

theorem GetRecommendationsSince_record_mono {st : StoreState} {label : String}
    {since : Int} {l2 : String} {i2 : Int} {m2 : String} {t2 : Int}
    (ht : since ≤ t2) {i : Int}
    (h : i ∈ Store.GetRecommendationsSince st label since) :
    i ∈ Store.GetRecommendationsSince (Store.RecordRecommendation st l2 i2 m2 t2)
        label since := by
  rw [Store.mem_GetRecommendationsSince] at h ⊢
  obtain ⟨r, hr, hlab, hwin, hid⟩ := h
  unfold Store.RecordRecommendation
  split
  · split
    · refine ⟨if r.keyIs l2 i2 m2 then { r with lastSeenAt := t2 } else r,
        List.mem_map_of_mem _ hr, ?_⟩
      split
      · exact ⟨hlab, ht, hid⟩
      · exact ⟨hlab, hwin, hid⟩
    · exact ⟨r, List.mem_append_left _ hr, hlab, hwin, hid⟩
  · exact ⟨r, hr, hlab, hwin, hid⟩

theorem GetRecommendationsSince_record_self {st : StoreState} {label : String}
    {since : Int} {i : Int} {m : String} {t : Int}
    (ht : since ≤ t) (hv : validMediaType m = true) :
    i ∈ Store.GetRecommendationsSince (Store.RecordRecommendation st label i m t)
        label since := by
  rw [Store.mem_GetRecommendationsSince]
  unfold Store.RecordRecommendation
  rw [if_pos hv]
  split
  · next hany =>
    obtain ⟨r, hr, hk⟩ := List.any_eq_true.mp hany
    obtain ⟨h1, h2, h3⟩ := HistoryRow.keyIs_iff.mp hk
    refine ⟨{ r with lastSeenAt := t }, ?_, h1, ht, h2⟩
    have : (if r.keyIs label i m then { r with lastSeenAt := t } else r) =
        { r with lastSeenAt := t } := if_pos hk
    exact this ▸ List.mem_map_of_mem _ hr
  · exact ⟨⟨label, i, m, t, t⟩,
      List.mem_append_right _ (List.mem_singleton.mpr rfl), rfl, ht, rfl⟩

/-- Witness for C4 (amended): under `apiX` the returned title equals the
query, and the second call is served from cache with zero searches. -/
theorem claim_C4_witness :
    (Client.SearchAndResolve apiX "X" 2020 "movie"
        (Client.SearchAndResolve apiX "X" 2020 "movie" stEmpty 10).2.1 11).2.2 = 0 ∧
    ∃ r2, (Client.SearchAndResolve apiX "X" 2020 "movie"
        (Client.SearchAndResolve apiX "X" 2020 "movie" stEmpty 10).2.1 11).1 =
        .ok r2 ∧ r2.tmdbId = titleX.tmdbId :=
  claim_C4 apiX "X" 2020 "movie" stEmpty 10 11 titleX (Or.inl rfl) rfl rfl

/-- The cache/dedup key of a candidate, after medium normalization. -/
def recKey (rec : LLMRec) : String × Int × String :=
  (rec.title, rec.year, normalizeMedium rec.medium)

/-- Invariant of the first run (with no record-write failures): the
inventory is untouched, every cache row has a valid media type, the
overlay is contained in the current history window, and every processed
key is covered (resolving it can only yield an excluded id, or fail). -/
structure Run1Inv (api : TMDbAPI) (label : String) (now : Int) (st0 : StoreState)
    (keys : List (String × Int × String)) (ls : LoopState) : Prop where
  inv_eq : ls.store.inventory = st0.inventory
  wfAll : ∀ e ∈ ls.store.cache, validMediaType e.mediaType = true
  already_sub : ∀ i ∈ ls.already,
      i ∈ Store.GetRecommendationsSince ls.store label (now - 60)
  covered : ∀ k ∈ keys,
      CoveredKey api ls.already st0 ls.store.cache k.1 k.2.1 k.2.2

theorem CoveredKey_of_lookup {api : TMDbAPI} {A : List Int} {inv0 : StoreState}
    {C : List CacheRow} {t : String} {y : Int} {m : String} {e : CacheRow}
    (hlk : Store.lookupCache C t y m = some e)
    (hH : Handled A inv0 e.tmdbId m) : CoveredKey api A inv0 C t y m := by
  unfold CoveredKey
  rw [hlk]
  exact hH

theorem CoveredKey_of_miss_err {api : TMDbAPI} {A : List Int} {inv0 : StoreState}
    {C : List CacheRow} {t : String} {y : Int} {m : String} {err : String}
    (hlk : Store.lookupCache C t y m = none)
    (hf : freshResult api t y m = .error err) : CoveredKey api A inv0 C t y m := by
  unfold CoveredKey
  rw [hlk, hf]
  exact trivial

theorem CoveredKey_congr {api : TMDbAPI} {A : List Int} {inv0 : StoreState}
    {C C2 : List CacheRow} {t : String} {y : Int} {m : String} (h : C = C2) :
    CoveredKey api A inv0 C t y m → CoveredKey api A inv0 C2 t y m :=
  h ▸ id

theorem run1Inv_step {api : TMDbAPI} {label : String} {now : Int}
    {st0 : StoreState} {keys : List (String × Int × String)} {ls : LoopState}
    (rec : LLMRec) (H : Run1Inv api label now st0 keys ls) :
    Run1Inv api label now st0 (keys ++ [recKey rec])
      (Resolver.step api label now noRecordFail ls rec) := by
  have hwin : now - 60 ≤ now := by omega
  simp only [Resolver.step]
  rcases hSA : Client.SearchAndResolve api rec.title rec.year
    (normalizeMedium rec.medium) ls.store now with ⟨res, st', calls⟩
  cases hlk : Store.lookupCache ls.store.cache rec.title rec.year
      (normalizeMedium rec.medium) with
  | some e =>
    obtain ⟨het, hey, hem⟩ := lookupCache_some_fields hlk
    have hemem : e ∈ ls.store.cache := List.mem_of_find?_eq_some hlk
    have hvm : validMediaType (normalizeMedium rec.medium) = true :=
      hem ▸ H.wfAll e hemem
    have heq := hSA.symm.trans (SearchAndResolve_hit api now hlk)
    injection heq with hres hrest
    injection hrest with hst hcalls
    subst hres
    subst hst
    dsimp only
    by_cases hmem : ls.already.contains (cachedResult e).tmdbId = true
    · rw [if_pos hmem]
      have hememA : e.tmdbId ∈ ls.already := List.contains_iff_mem_int.mp hmem
      refine { inv_eq := H.inv_eq, wfAll := H.wfAll,
               already_sub := H.already_sub, covered := ?_ }
      intro k hk
      rcases List.mem_append.mp hk with hk | hk
      · exact H.covered k hk
      · rcases List.mem_singleton.mp hk with rfl
        exact CoveredKey_of_lookup hlk (Or.inl hememA)
    · rw [if_neg hmem]
      by_cases hplex : Store.IsInPlexInventory ls.store (cachedResult e).tmdbId
          (normalizeMedium rec.medium) = true
      · rw [if_pos hplex]
        have hplex0 : Store.IsInPlexInventory st0 e.tmdbId
            (normalizeMedium rec.medium) = true :=
          (Store.IsInPlexInventory_congr H.inv_eq _ _) ▸ hplex
        refine { inv_eq := H.inv_eq, wfAll := H.wfAll,
                 already_sub := H.already_sub, covered := ?_ }
        intro k hk
        rcases List.mem_append.mp hk with hk | hk
        · exact H.covered k hk
        · rcases List.mem_singleton.mp hk with rfl
          exact CoveredKey_of_lookup hlk (Or.inr hplex0)
      · rw [if_neg hplex]
        have hcc := Store.RecordRecommendation_cache ls.store label
          (cachedResult e).tmdbId (normalizeMedium rec.medium) now
        show Run1Inv api label now st0 (keys ++ [recKey rec])
          ⟨_, _, Store.RecordRecommendation ls.store label (cachedResult e).tmdbId
            (normalizeMedium rec.medium) now, _⟩
        refine { inv_eq := ?_, wfAll := ?_, already_sub := ?_, covered := ?_ }
        · exact (Store.RecordRecommendation_inventory ls.store label
            (cachedResult e).tmdbId (normalizeMedium rec.medium) now).trans H.inv_eq
        · intro e2 he2
          rw [hcc] at he2
          exact H.wfAll e2 he2
        · intro i hi
          rcases List.mem_cons.mp hi with rfl | hi
          · exact GetRecommendationsSince_record_self hwin hvm
          · exact GetRecommendationsSince_record_mono hwin (H.already_sub i hi)
        · intro k hk
          rcases List.mem_append.mp hk with hk | hk
          · exact CoveredKey_congr hcc.symm
              (coveredKey_mono (List.subset_cons_self _ _) (H.covered k hk))
          · rcases List.mem_singleton.mp hk with rfl
            exact CoveredKey_congr hcc.symm
              (CoveredKey_of_lookup hlk (Or.inl (List.mem_cons_self _ _)))
  | none =>
    cases hfr : freshResult api rec.title rec.year (normalizeMedium rec.medium) with
    | error err =>
      have heq := hSA.symm.trans (SearchAndResolve_miss_err now hlk hfr)
      injection heq with hres hrest
      injection hrest with hst hcalls
      subst hres
      subst hst
      dsimp only
      refine { inv_eq := H.inv_eq, wfAll := H.wfAll,
               already_sub := H.already_sub, covered := ?_ }
      intro k hk
      rcases List.mem_append.mp hk with hk | hk
      · exact H.covered k hk
      · rcases List.mem_singleton.mp hk with rfl
        exact CoveredKey_of_miss_err hlk hfr
    | ok rr =>
      obtain ⟨hyy, hmm, hvm⟩ := freshResult_fields hfr
      have heq := hSA.symm.trans (SearchAndResolve_miss_ok now hlk hfr)
      injection heq with hres hrest
      injection hrest with hst hcalls
      subst hres
      subst hst
      dsimp only
      have hcache' : (Client.cacheResult ls.store rr now).cache =
          (⟨rr.title, rr.year, rr.mediaType, rr.tmdbId, rr.imdbId, rr.country,
            rr.runtimeMin, now⟩ : CacheRow) :: ls.store.cache := rfl
      have hwf' : ∀ e2 ∈ (Client.cacheResult ls.store rr now).cache,
          validMediaType e2.mediaType = true := by
        intro e2 he2
        rw [hcache'] at he2
        rcases List.mem_cons.mp he2 with rfl | he2
        · exact hmm ▸ hvm
        · exact H.wfAll e2 he2
      have hcovNew : ∀ A : List Int,
          Handled A st0 rr.tmdbId (normalizeMedium rec.medium) →
          CoveredKey api A st0 (Client.cacheResult ls.store rr now).cache
            rec.title rec.year (normalizeMedium rec.medium) := by
        intro A hH
        rw [hcache']
        unfold CoveredKey
        rw [lookupCache_cons]
        dsimp only
        by_cases hp : (rr.title == rec.title && rr.year == rec.year &&
            rr.mediaType == normalizeMedium rec.medium) = true
        · rw [if_pos hp]
          exact hH
        · rw [if_neg hp, hlk, hfr]
          exact hH
      have hconsSafe : ∀ (A : List Int) (k : String × Int × String),
          Handled A st0 rr.tmdbId (normalizeMedium rec.medium) →
          CoveredKey api A st0 ls.store.cache k.1 k.2.1 k.2.2 →
          CoveredKey api A st0 (Client.cacheResult ls.store rr now).cache
            k.1 k.2.1 k.2.2 := by
        intro A k hH hcov
        rw [hcache']
        exact coveredKey_cons (by rw [hmm]; exact hH) hcov
      by_cases hmem : ls.already.contains rr.tmdbId = true
      · rw [if_pos hmem]
        have hmemA : rr.tmdbId ∈ ls.already := List.contains_iff_mem_int.mp hmem
        refine { inv_eq := H.inv_eq, wfAll := hwf', already_sub := H.already_sub,
                 covered := ?_ }
        intro k hk
        rcases List.mem_append.mp hk with hk | hk
        · exact hconsSafe _ k (Or.inl hmemA) (H.covered k hk)
        · rcases List.mem_singleton.mp hk with rfl
          exact hcovNew _ (Or.inl hmemA)
      · rw [if_neg hmem]
        by_cases hplex : Store.IsInPlexInventory (Client.cacheResult ls.store rr now)
            rr.tmdbId (normalizeMedium rec.medium) = true
        · rw [if_pos hplex]
          have hplex0 : Store.IsInPlexInventory st0 rr.tmdbId
              (normalizeMedium rec.medium) = true := by
            rw [← Store.IsInPlexInventory_congr
              ((Client.cacheResult_inventory ls.store rr now).trans H.inv_eq)
              rr.tmdbId (normalizeMedium rec.medium)]
            exact hplex
          refine { inv_eq := H.inv_eq, wfAll := hwf', already_sub := H.already_sub,
                   covered := ?_ }
          intro k hk
          rcases List.mem_append.mp hk with hk | hk
          · exact hconsSafe _ k (Or.inr hplex0) (H.covered k hk)
          · rcases List.mem_singleton.mp hk with rfl
            exact hcovNew _ (Or.inr hplex0)
        · rw [if_neg hplex]
          have hcc := Store.RecordRecommendation_cache
            (Client.cacheResult ls.store rr now) label rr.tmdbId
            (normalizeMedium rec.medium) now
          show Run1Inv api label now st0 (keys ++ [recKey rec])
            ⟨_, _, Store.RecordRecommendation (Client.cacheResult ls.store rr now)
              label rr.tmdbId (normalizeMedium rec.medium) now, _⟩
          have hH : Handled (rr.tmdbId :: ls.already) st0 rr.tmdbId
              (normalizeMedium rec.medium) := Or.inl (List.mem_cons_self _ _)
          refine { inv_eq := ?_, wfAll := ?_, already_sub := ?_, covered := ?_ }
          · exact (Store.RecordRecommendation_inventory _ label rr.tmdbId
              (normalizeMedium rec.medium) now).trans
              ((Client.cacheResult_inventory ls.store rr now).trans H.inv_eq)
          · intro e2 he2
            rw [hcc] at he2
            exact hwf' e2 he2
          · intro i hi
            rcases List.mem_cons.mp hi with rfl | hi
            · exact GetRecommendationsSince_record_self hwin hvm
            · exact GetRecommendationsSince_record_mono hwin (H.already_sub i hi)
          · intro k hk
            rcases List.mem_append.mp hk with hk | hk
            · exact CoveredKey_congr hcc.symm (hconsSafe _ k hH
                (coveredKey_mono (List.subset_cons_self _ _) (H.covered k hk)))
            · rcases List.mem_singleton.mp hk with rfl
              exact CoveredKey_congr hcc.symm (hcovNew _ hH)

theorem run1Inv_foldl {api : TMDbAPI} {label : String} {now : Int}
    {st0 : StoreState} :
    ∀ (recs : List LLMRec) (keys : List (String × Int × String)) (ls : LoopState),
      Run1Inv api label now st0 keys ls →
      Run1Inv api label now st0 (keys ++ recs.map recKey)
        (recs.foldl (Resolver.step api label now noRecordFail) ls)
  | [], keys, ls, H => by simpa using H
  | rec :: rest, keys, ls, H => by
    have H2 := run1Inv_foldl rest (keys ++ [recKey rec]) _ (run1Inv_step rec H)
    simpa [List.append_assoc] using H2

/-- Invariant of the immediate second run: nothing has been emitted, the
start-of-run exclusion set `A` stays inside the overlay, the inventory is
still the original one, and every candidate key stays covered. -/
structure Run2Inv (api : TMDbAPI) (A : List Int) (st0 : StoreState)
    (keys : List (String × Int × String)) (ms : LoopState) : Prop where
  resolved_nil : ms.resolved = []
  a_sub : A ⊆ ms.already
  inv_eq : ms.store.inventory = st0.inventory
  covered : ∀ k ∈ keys, CoveredKey api A st0 ms.store.cache k.1 k.2.1 k.2.2

theorem run2Inv_step {api : TMDbAPI} {label : String} {now : Int}
    {st0 : StoreState} {A : List Int} {keys : List (String × Int × String)}
    {ms : LoopState} (rec : LLMRec) (hkmem : recKey rec ∈ keys)
    (H : Run2Inv api A st0 keys ms) :
    Run2Inv api A st0 keys (Resolver.step api label now noRecordFail ms rec) := by
  have hcov := H.covered (recKey rec) hkmem
  dsimp only [recKey] at hcov
  simp only [Resolver.step]
  rcases hSA : Client.SearchAndResolve api rec.title rec.year
    (normalizeMedium rec.medium) ms.store now with ⟨res, st', calls⟩
  cases hlk : Store.lookupCache ms.store.cache rec.title rec.year
      (normalizeMedium rec.medium) with
  | some e =>
    have hH : Handled A st0 e.tmdbId (normalizeMedium rec.medium) := by
      unfold CoveredKey at hcov
      rw [hlk] at hcov
      exact hcov
    have heq := hSA.symm.trans (SearchAndResolve_hit api now hlk)
    injection heq with hres hrest
    injection hrest with hst hcalls
    subst hres
    subst hst
    dsimp only
    rcases hH with hA | hinv
    · have hmem : ms.already.contains (cachedResult e).tmdbId = true :=
        List.contains_iff_mem_int.mpr (H.a_sub hA)
      rw [if_pos hmem]
      exact { resolved_nil := H.resolved_nil, a_sub := H.a_sub,
              inv_eq := H.inv_eq, covered := H.covered }
    · by_cases hmem : ms.already.contains (cachedResult e).tmdbId = true
      · rw [if_pos hmem]
        exact { resolved_nil := H.resolved_nil, a_sub := H.a_sub,
                inv_eq := H.inv_eq, covered := H.covered }
      · rw [if_neg hmem]
        have hplex : Store.IsInPlexInventory ms.store (cachedResult e).tmdbId
            (normalizeMedium rec.medium) = true := by
          rw [Store.IsInPlexInventory_congr H.inv_eq]
          exact hinv
        rw [if_pos hplex]
        exact { resolved_nil := H.resolved_nil, a_sub := H.a_sub,
                inv_eq := H.inv_eq, covered := H.covered }
  | none =>
    cases hfr : freshResult api rec.title rec.year (normalizeMedium rec.medium) with
    | error err =>
      have heq := hSA.symm.trans (SearchAndResolve_miss_err now hlk hfr)
      injection heq with hres hrest
      injection hrest with hst hcalls
      subst hres
      subst hst
      dsimp only
      exact { resolved_nil := H.resolved_nil, a_sub := H.a_sub,
              inv_eq := H.inv_eq, covered := H.covered }
    | ok rr =>
      obtain ⟨hyy, hmm, hvm⟩ := freshResult_fields hfr
      have hH : Handled A st0 rr.tmdbId (normalizeMedium rec.medium) := by
        unfold CoveredKey at hcov
        rw [hlk, hfr] at hcov
        exact hcov
      have heq := hSA.symm.trans (SearchAndResolve_miss_ok now hlk hfr)
      injection heq with hres hrest
      injection hrest with hst hcalls
      subst hres
      subst hst
      dsimp only
      have hcov' : ∀ k ∈ keys, CoveredKey api A st0
          (Client.cacheResult ms.store rr now).cache k.1 k.2.1 k.2.2 := by
        intro k hk
        have hcc : (Client.cacheResult ms.store rr now).cache =
            (⟨rr.title, rr.year, rr.mediaType, rr.tmdbId, rr.imdbId, rr.country,
              rr.runtimeMin, now⟩ : CacheRow) :: ms.store.cache := rfl
        rw [hcc]
        exact coveredKey_cons (by rw [hmm]; exact hH) (H.covered k hk)
      have hinv' : (Client.cacheResult ms.store rr now).inventory = st0.inventory :=
        (Client.cacheResult_inventory ms.store rr now).trans H.inv_eq
      rcases hH with hA | hinv
      · rw [if_pos (List.contains_iff_mem_int.mpr (H.a_sub hA))]
        exact { resolved_nil := H.resolved_nil, a_sub := H.a_sub,
                inv_eq := hinv', covered := hcov' }
      · by_cases hmem : ms.already.contains rr.tmdbId = true
        · rw [if_pos hmem]
          exact { resolved_nil := H.resolved_nil, a_sub := H.a_sub,
                  inv_eq := hinv', covered := hcov' }
        · rw [if_neg hmem]
          have hplex : Store.IsInPlexInventory (Client.cacheResult ms.store rr now)
              rr.tmdbId (normalizeMedium rec.medium) = true := by
            rw [Store.IsInPlexInventory_congr hinv']
            exact hinv
          rw [if_pos hplex]
          exact { resolved_nil := H.resolved_nil, a_sub := H.a_sub,
                  inv_eq := hinv', covered := hcov' }

theorem run2Inv_foldl {api : TMDbAPI} {label : String} {now : Int}
    {st0 : StoreState} {A : List Int} {keys : List (String × Int × String)} :
    ∀ (recs : List LLMRec) (ms : LoopState),
      (∀ rec ∈ recs, recKey rec ∈ keys) →
      Run2Inv api A st0 keys ms →
      Run2Inv api A st0 keys
        (recs.foldl (Resolver.step api label now noRecordFail) ms)
  | [], _, _, H => H
  | rec :: rest, ms, hks, H =>
    run2Inv_foldl rest _ (fun r hr => hks r (List.mem_cons_of_mem _ hr))
      (run2Inv_step rec (hks rec (List.mem_cons_self _ _)) H)

/-- The store a run returns is the loop's final store, on success or
failure alike. -/
theorem Resolve_snd (api : TMDbAPI) (recs : List LLMRec) (label : String)
    (st : StoreState) (now : Int) (f : Nat → Bool) :
    (Resolver.Resolve api recs label st now f).2 =
      (recs.foldl (Resolver.step api label now f)
        ⟨[], Store.GetRecommendationsSince st label (now - 60), st, 0⟩).store := by
  simp only [Resolver.Resolve]
  split <;> rfl

/-- C3: running the pipeline and then immediately re-running it on the
same candidate list and category, with the same clock and no write
failures, makes the second run resolve nothing and return the exhaustion
error.  The only assumption is the schema CHECK on cached media types. -/
theorem claim_C3 (api : TMDbAPI) (recs : List LLMRec) (label : String)
    (st : StoreState) (now : Int)
    (hwf : ∀ e ∈ st.cache, validMediaType e.mediaType = true) :
    (Resolver.Resolve api recs label
        (Resolver.Resolve api recs label st now noRecordFail).2 now noRecordFail).1 =
      .error "no recommendations could be resolved" := by
  have H1 : Run1Inv api label now st ([] ++ recs.map recKey)
      (recs.foldl (Resolver.step api label now noRecordFail)
        ⟨[], Store.GetRecommendationsSince st label (now - 60), st, 0⟩) :=
    run1Inv_foldl recs []
      ⟨[], Store.GetRecommendationsSince st label (now - 60), st, 0⟩
      { inv_eq := rfl, wfAll := hwf,
        already_sub := fun _ hi => hi,
        covered := fun _ hk => absurd hk (List.not_mem_nil _) }
  rw [List.nil_append] at H1
  set ls1 := recs.foldl (Resolver.step api label now noRecordFail)
    ⟨[], Store.GetRecommendationsSince st label (now - 60), st, 0⟩ with hls1
  have H2 : Run2Inv api (Store.GetRecommendationsSince ls1.store label (now - 60))
      st (recs.map recKey)
      (recs.foldl (Resolver.step api label now noRecordFail)
        ⟨[], Store.GetRecommendationsSince ls1.store label (now - 60),
          ls1.store, 0⟩) :=
    run2Inv_foldl recs
      ⟨[], Store.GetRecommendationsSince ls1.store label (now - 60), ls1.store, 0⟩
      (fun r hr => List.mem_map_of_mem _ hr)
      { resolved_nil := rfl
        a_sub := fun _ hi => hi
        inv_eq := H1.inv_eq
        covered := fun k hk =>
          coveredKey_mono (fun i hi => H1.already_sub i hi) (H1.covered k hk) }
  rw [Resolve_snd, ← hls1]
  simp only [Resolver.Resolve]
  rw [H2.resolved_nil]
  rfl

/-- Witness for C3: a concrete first run (emitting id 99 for "X") whose
immediate re-run returns the exhaustion error. -/
theorem claim_C3_witness :
    (Resolver.Resolve apiX [recX] "Docs"
        (Resolver.Resolve apiX [recX] "Docs" stEmpty 100 noRecordFail).2 100
        noRecordFail).1 =
      .error "no recommendations could be resolved" :=
  claim_C3 apiX [recX] "Docs" stEmpty 100 (fun e he => absurd he (List.not_mem_nil e))

/-- Witness for C8 at `apiBoth`. -/
theorem claim_C8_witness :
    (∃ r, Client.searchMovie apiBoth "M" 2001 = .ok r ∧
      (∀ e, apiBoth.getMovieDetails (⟨7, "M", "", 3, 0⟩ : SearchResult).id = .error e →
        r.genres = [] ∧ r.runtimeMin = 0 ∧ r.country = "" ∧ r.imdbId = "") ∧
      (∀ e, apiBoth.getMovieKeywords (⟨7, "M", "", 3, 0⟩ : SearchResult).id = .error e →
        r.keywords = [])) ∧
    (∃ r, Client.searchTV apiBoth "M" 2001 = .ok r ∧
      (∀ e, apiBoth.getTVDetails (⟨8, "T", "", 4, 0⟩ : SearchResult).id = .error e →
        r.genres = [] ∧ r.runtimeMin = 0 ∧ r.country = "") ∧
      (∀ e, apiBoth.getTVKeywords (⟨8, "T", "", 4, 0⟩ : SearchResult).id = .error e →
        r.keywords = [])) :=
  claim_C8 apiBoth "M" 2001 ⟨7, "M", "", 3, 0⟩ ⟨8, "T", "", 4, 0⟩ [] [] rfl rfl

end Scryarr
